import Mathlib

/-!
# WinRT websocket client (ws_winrt.cpp): send serializer, receive relay, close signal

A shallow embedding of `winrt_client` and `ReceiveContext` from
`Release/src/websockets/client/ws_winrt.cpp`.

The client is a record of its member variables.  Every critical section of the
source (a region run under `m_send_lock` or `m_receive_queue_lock`) and every
callback the transport or the task scheduler may run is one function on that
record; a run of the client is a list of such events applied in order, so that
every interleaving of callers, transport events and continuations is a list of
events.  Besides the member variables the record keeps the observable history:
the calls of `send_msg`, the writes still pending in the transport, the threads
blocked in or released from the condition variable, and the results handed back
by `receive()`.

Conventions.
* The continuations of one `send_msg` (byte-count check, `catch`, block under
  `m_send_lock`, final `set()`) run one after the other and, outside the locked
  block, touch only the completion event of their own message; they are one event.
* The task of `receive()` is two events: entering the wait, and the rest of the
  function once the thread has been released and holds the lock again.
* `m_scheduled` is an `int`; it is an integer here.  It counts pending sends, so it
  stays far below `2^31`, and signed overflow has no defined result in C++.
* The transport (`MessageWebSocket`, `DataWriter`) is the environment: its events
  and results are the parameters of the events.
* The destructor ends the life of the members.  A thread of `receive()` released
  from the wait goes on afterwards and then uses destroyed members; this is recorded
  instead of an outcome.  The public functions need a reference to the client, so
  they are not called after the destructor, and the transport is taken not to raise
  events or complete writes for a destroyed client; the functions for these events
  are those of a live client.
-/

namespace WsWinrt

/-! ## Data model -/

/-- Message kinds of `websocket_message_type`; `other` stands for every value that is
neither UTF-8 text nor binary (the `default:` branch of the constructor). -/
inductive websocket_message_type where
  | text_message
  | binary_message
  | other (tag : Nat)
  deriving DecidableEq, Repr

/-- Frame kinds of the transport, `SocketMessageType`. -/
inductive SocketMessageType where
  | Binary
  | Utf8
  deriving DecidableEq, Repr

/-- The `websocket_exception` values raised in this file, named after the error they
report: "Client not connected.", "Message type mismatch.", "Cannot send empty message.",
"Message size too large...", "Failed to send all the bytes.", an exception built from a
platform `HResult`, and "Error receiving message, websocket client is closing.". -/
inductive websocket_exception where
  | NotConnected
  | TypeMismatch
  | EmptyMessage
  | MessageTooLarge
  | SendIncomplete
  | TransportFault (hresult : Int)
  | ConnectionClosing
  deriving DecidableEq, Repr

/-- Modelled from the spec: `pplx::task_completion_event` is defined outside this source
file.  The spec describes it as a single-assignment completion token, resolved exactly once
(success or one error), with a guard against double resolution: the first resolution
stays. -/
inductive tce_state where
  | pending
  | completed
  | faulted (e : websocket_exception)
  deriving DecidableEq, Repr

/-- Modelled from the spec: `task_completion_event::set()`, which completes a pending
token and leaves a resolved one as it is. -/
def tce_state.set : tce_state → tce_state
  | .pending => .completed
  | s => s

/-- Modelled from the spec: `task_completion_event::set_exception(e)`, which fails a
pending token with `e` and leaves a resolved one as it is. -/
def tce_state.set_exception : tce_state → websocket_exception → tce_state
  | .pending, e => .faulted e
  | s, _ => s

/-- An outgoing message as `send` sees it: its type, `_m_impl->length()` and the identity
of its completion event `m_send_tce` (copies of a message share the event). -/
structure websocket_outgoing_message where
  message_type : websocket_message_type
  length : Nat
  m_send_tce : Nat
  deriving DecidableEq, Repr

/-- An incoming message as `OnReceive` builds it. -/
structure websocket_incoming_message where
  message_type : websocket_message_type
  length : Nat
  data : List Nat
  deriving DecidableEq, Repr

/-- The arguments of a `MessageReceived` event: the frame kind and what reading the frame
gives, `none` when `GetDataReader`/`ReadBytes` raises a `Platform::Exception`. -/
structure MessageReceivedEventArgs where
  MessageType : SocketMessageType
  reader : Option (List Nat)
  deriving DecidableEq, Repr

/-- What `DataWriter::StoreAsync` reports for one `send_msg`: the bytes read from the
message and the bytes the transport confirms, or a `Platform::Exception`. -/
inductive store_result where
  | stored (bytes_read bytes_written : Nat)
  | platform_exception (hresult : Int)
  deriving DecidableEq, Repr

/-- The task `send` returns: already failed with an exception, or created from the
message's completion event. -/
inductive send_task where
  | from_exception (e : websocket_exception)
  | from_tce (tce : Nat)
  deriving DecidableEq, Repr

/-- The task `receive` returns once it has run: made from the popped message, or failed
with an exception. -/
inductive receive_task where
  | from_result (msg : websocket_incoming_message)
  | from_exception (e : websocket_exception)
  deriving DecidableEq, Repr

/-- The largest `unsigned int`, `UINT_MAX`. -/
def UINT_MAX : Nat := 4294967295

/-- The client.  The first block are the member variables of `winrt_client`
(`m_messageWriter` is `true` once the `DataWriter` exists, `m_scheduled` is the `int`
counter, the two queues are the `std::queue`s, `m_close_tce` the close event); then the
state of the completion events of the messages, the state of the transport and of the
condition variable `m_receive_msg_cv`, and the history of what was observed. -/
structure winrt_client where
  message_type : websocket_message_type
  m_messageWriter : Bool
  m_scheduled : Int
  m_outgoing_msg_queue : List websocket_outgoing_message
  m_receive_msg_queue : List websocket_incoming_message
  m_close_tce : tce_state
  /-- State of each message completion event, by identity. -/
  send_tce : Nat → tce_state
  /-- Messages given to `send_msg` whose final continuation has not run yet. -/
  in_flight : List websocket_outgoing_message
  /-- Threads blocked in `m_receive_msg_cv.wait`. -/
  cv_waiting : List Nat
  /-- Threads released from the wait that have not yet run the rest of `receive`. -/
  cv_released : List Nat
  /-- Every call of `send_msg`, in order. -/
  dispatched : List websocket_outgoing_message
  /-- Every message `send` accepted, in order. -/
  accepted : List websocket_outgoing_message
  /-- Every message the receive handler pushed, in order. -/
  arrived : List websocket_incoming_message
  /-- Every finished `receive()` with its outcome, in order of completion. -/
  received : List (Nat × receive_task)
  /-- Every call of `m_msg_websocket->Close`. -/
  close_requests : List (Nat × String)
  /-- Whether `~winrt_client` has run: the members, among them `m_receive_queue_lock`,
  `m_receive_msg_cv` and `m_receive_msg_queue`, are destroyed. -/
  destroyed : Bool
  /-- Threads of `receive()` that locked and read the members after their destruction;
  what such a thread does is undefined. -/
  use_after_destroy : List Nat

/-- The state the constructor leaves: counter 0, empty queues, no writer. -/
def winrt_client.fresh (mt : websocket_message_type) : winrt_client where
  message_type := mt
  m_messageWriter := false
  m_scheduled := 0
  m_outgoing_msg_queue := []
  m_receive_msg_queue := []
  m_close_tce := .pending
  send_tce := fun _ => .pending
  in_flight := []
  cv_waiting := []
  cv_released := []
  dispatched := []
  accepted := []
  arrived := []
  received := []
  close_requests := []
  destroyed := false
  use_after_destroy := []

/-- The constructor `winrt_client::winrt_client`: it throws `std::invalid_argument` unless
the configured type is binary or text. -/
def winrt_client.create (mt : websocket_message_type) : Except String winrt_client :=
  match mt with
  | .binary_message => .ok (winrt_client.fresh mt)
  | .text_message => .ok (winrt_client.fresh mt)
  | .other _ => .error "Invalid message type: neither UTF-8 nor binary!"

/-! ## Send serializer -/

/-- The start of `send_msg`: the message is handed to the transport (read, `WriteBytes`,
`StoreAsync`); its continuations run later. -/
def send_msg (c : winrt_client) (msg : websocket_outgoing_message) : winrt_client :=
  { c with in_flight := c.in_flight ++ [msg], dispatched := c.dispatched ++ [msg] }

/-- The function `winrt_client::send`: four checks, each returning a failed task, then the
block under `m_send_lock`. -/
def send (c : winrt_client) (msg : websocket_outgoing_message) : winrt_client × send_task :=
  if c.m_messageWriter = false then
    (c, .from_exception .NotConnected)
  else if msg.message_type ≠ c.message_type then
    (c, .from_exception .TypeMismatch)
  else if msg.length = 0 then
    (c, .from_exception .EmptyMessage)
  else if msg.length > UINT_MAX then
    (c, .from_exception .MessageTooLarge)
  else
    let c1 := { c with m_scheduled := c.m_scheduled + 1, accepted := c.accepted ++ [msg] }
    let c2 :=
      if c1.m_scheduled = 1 then
        send_msg c1 msg
      else
        { c1 with m_outgoing_msg_queue := c1.m_outgoing_msg_queue ++ [msg] }
    (c2, .from_tce msg.m_send_tce)

/-- Apply `f` to the completion event `t`. -/
def update_tce (c : winrt_client) (t : Nat) (f : tce_state → tce_state) : winrt_client :=
  { c with send_tce := fun u => if u = t then f (c.send_tce u) else c.send_tce u }

/-- The two places where the continuations of `send_msg` fail the message: the check
`bytes_written != bytes_read` after `StoreAsync`, and the `catch` of a
`Platform::Exception`. -/
def report_store_result (c : winrt_client) (msg : websocket_outgoing_message)
    (r : store_result) : winrt_client :=
  match r with
  | .stored bytes_read bytes_written =>
    if bytes_written ≠ bytes_read then
      update_tce c msg.m_send_tce (fun s => s.set_exception .SendIncomplete)
    else c
  | .platform_exception hresult =>
    update_tce c msg.m_send_tce (fun s => s.set_exception (.TransportFault hresult))

/-- The block under `m_send_lock` in the last continuation of `send_msg`: decrement the
counter and, when the queue is not empty, pop its front and call `send_msg` on it. -/
def advance_queue (c : winrt_client) : winrt_client :=
  let c1 := { c with m_scheduled := c.m_scheduled - 1 }
  match c1.m_outgoing_msg_queue with
  | [] => c1
  | next_msg :: rest => send_msg { c1 with m_outgoing_msg_queue := rest } next_msg

/-- The continuations of `send_msg` for the message `msg`, once `StoreAsync` has reported
`r`: fail the message if the write was short or raised, run the block under
`m_send_lock`, then the final `msg.m_send_tce.set()`. -/
def send_msg_continuation (c : winrt_client) (msg : websocket_outgoing_message)
    (r : store_result) : winrt_client :=
  update_tce (advance_queue (report_store_result c msg r)) msg.m_send_tce tce_state.set

/-- The transport finishes the pending write number `i`: that message leaves the
transport and its continuations run.  Without such a write nothing happens. -/
def store_completed (c : winrt_client) (i : Nat) (r : store_result) : winrt_client :=
  match c.in_flight.get? i with
  | none => c
  | some msg => send_msg_continuation { c with in_flight := c.in_flight.eraseIdx i } msg r

/-! ## Receive relay -/

/-- The call `m_receive_msg_cv.notify_one()`: one blocked thread, if any, is released;
`pick` chooses which. -/
def notify_one (c : winrt_client) (pick : Nat) : winrt_client :=
  match c.cv_waiting.get? (pick % c.cv_waiting.length) with
  | none => c
  | some w =>
    { c with
      cv_waiting := c.cv_waiting.eraseIdx (pick % c.cv_waiting.length)
      cv_released := c.cv_released ++ [w] }

/-- The call `m_receive_msg_cv.notify_all()`: every blocked thread is released. -/
def notify_all (c : winrt_client) : winrt_client :=
  { c with cv_waiting := [], cv_released := c.cv_released ++ c.cv_waiting }

/-- The receive handler given to `ReceiveContext` by the constructor: push the message
unless the pointer is null, then `notify_one`. -/
def receive_handler (c : winrt_client) (msg : Option websocket_incoming_message)
    (pick : Nat) : winrt_client :=
  let c1 :=
    match msg with
    | some m =>
      { c with
        m_receive_msg_queue := c.m_receive_msg_queue ++ [m]
        arrived := c.arrived ++ [m] }
    | none => c
  notify_one c1 pick

/-- The close handler given to `ReceiveContext` by the constructor: `notify_all`, then
`m_close_tce.set()`. -/
def close_handler (c : winrt_client) : winrt_client :=
  let c1 := notify_all c
  { c1 with m_close_tce := c1.m_close_tce.set }

/-- The message `ReceiveContext::OnReceive` gives to the receive handler: the frame with
its type and length, or the null pointer when reading raised an exception. -/
def OnReceive_message (args : MessageReceivedEventArgs) : Option websocket_incoming_message :=
  match args.reader with
  | some bytes =>
    some
      { message_type :=
          match args.MessageType with
          | .Binary => .binary_message
          | .Utf8 => .text_message
        length := bytes.length
        data := bytes }
  | none => none

/-- The method `ReceiveContext::OnReceive`. -/
def OnReceive (c : winrt_client) (args : MessageReceivedEventArgs) (pick : Nat) :
    winrt_client :=
  receive_handler c (OnReceive_message args) pick

/-- The method `ReceiveContext::OnClosed`. -/
def OnClosed (c : winrt_client) : winrt_client :=
  close_handler c

/-- The first two statements of the task of `receive()`: take `m_receive_queue_lock` and
call `m_receive_msg_cv.wait(lock)`; the calling thread `caller` blocks. -/
def receive_wait (c : winrt_client) (caller : Nat) : winrt_client :=
  { c with cv_waiting := c.cv_waiting ++ [caller] }

/-- The rest of the task of `receive()`, run by a released thread once it holds the lock
again: fail when the queue is empty, else pop the front.  A thread that was not released
does not run. -/
def receive_resume (c : winrt_client) (caller : Nat) : winrt_client :=
  if caller ∈ c.cv_released then
    let c1 := { c with cv_released := c.cv_released.erase caller }
    match c1.m_receive_msg_queue with
    | [] => { c1 with received := c1.received ++ [(caller, .from_exception .ConnectionClosing)] }
    | msg :: rest =>
      { c1 with
        m_receive_msg_queue := rest
        received := c1.received ++ [(caller, .from_result msg)] }
  else c

/-! ## Close and teardown -/

/-- The function `winrt_client::close(status, reason)`: ask the transport to close; the
task returned is created from `m_close_tce`. -/
def close (c : winrt_client) (status : Nat) (reason : String) : winrt_client :=
  { c with close_requests := c.close_requests ++ [(status, reason)] }

/-- The destructor `~winrt_client`: the body calls `notify_all`; right after the body the
members are destroyed, the mutex, the condition variable and the receive queue among
them. -/
def destroy (c : winrt_client) : winrt_client :=
  { notify_all c with destroyed := true }

/-- A released thread of `receive()` going on after the destructor: the task captured
`this` as a plain pointer, so the thread locks `m_receive_queue_lock` and reads
`m_receive_msg_queue` after their destruction.  The behaviour is undefined: the thread is
recorded in `use_after_destroy` and no outcome of its `receive()` is recorded. -/
def receive_resume_destroyed (c : winrt_client) (caller : Nat) : winrt_client :=
  if caller ∈ c.cv_released then
    { c with
      cv_released := c.cv_released.erase caller
      use_after_destroy := c.use_after_destroy ++ [caller] }
  else c

/-- The continuation of `connect()`: on success the `DataWriter` is created. -/
def connect_completed (c : winrt_client) (failure : Option Int) : winrt_client :=
  match failure with
  | none => { c with m_messageWriter := true }
  | some _ => c

/-! ## Runs -/

/-- Everything that can happen to a client: calls of its public functions, events of the
transport, and threads of `receive()` going on after a wait (`spurious_wakeup` is the
wake-up without notification that `std::condition_variable::wait` allows). -/
inductive Event where
  | connect_completed (failure : Option Int)
  | send (msg : websocket_outgoing_message)
  | store_completed (i : Nat) (r : store_result)
  | receive (caller : Nat)
  | receive_resume (caller : Nat)
  | spurious_wakeup (pick : Nat)
  | OnReceive (args : MessageReceivedEventArgs) (pick : Nat)
  | OnClosed
  | close (status : Nat) (reason : String)
  | destroy
  deriving DecidableEq, Repr

/-- One event applied to the client.  A released thread of `receive()` runs the rest of
`receive` on a live client and touches destroyed members on a destroyed one. -/
def step (c : winrt_client) : Event → winrt_client
  | .connect_completed failure => connect_completed c failure
  | .send msg => (send c msg).1
  | .store_completed i r => store_completed c i r
  | .receive caller => receive_wait c caller
  | .receive_resume caller =>
    if c.destroyed then receive_resume_destroyed c caller else receive_resume c caller
  | .spurious_wakeup pick => notify_one c pick
  | .OnReceive args pick => OnReceive c args pick
  | .OnClosed => OnClosed c
  | .close status reason => close c status reason
  | .destroy => destroy c

/-- A list of events applied in order. -/
def run (c : winrt_client) (events : List Event) : winrt_client :=
  events.foldl step c

/-- A fresh client after a successful `connect()`. -/
def winrt_client.connected (mt : websocket_message_type) : winrt_client :=
  connect_completed (winrt_client.fresh mt) none

/-! ## Invariants and observations -/

/-- The accounting of the send serializer: at most one write is pending in the transport,
the counter counts the pending write and the queued messages, messages queue up only
behind a pending write, and the dispatched messages followed by the queued ones are the
accepted ones. -/
def SendInv (c : winrt_client) : Prop :=
  c.in_flight.length ≤ 1 ∧
  c.m_scheduled = (c.in_flight.length : Int) + (c.m_outgoing_msg_queue.length : Int) ∧
  (c.m_outgoing_msg_queue ≠ [] → c.in_flight.length = 1) ∧
  c.dispatched ++ c.m_outgoing_msg_queue = c.accepted

/-- The condition under which `send` accepts a message, in the words of the validation
table: writer initialised, type as configured, length neither 0 nor above the maximum. -/
def send_accepts (c : winrt_client) (msg : websocket_outgoing_message) : Prop :=
  c.m_messageWriter = true ∧ msg.message_type = c.message_type ∧
  msg.length ≠ 0 ∧ msg.length ≤ 2 ^ 32 - 1

/-- The messages a connected client configured for `mt` accepts among the `send` calls of
a run, in the order of the calls: those of type `mt` with a length from 1 to UINT_MAX. -/
def submitted (mt : websocket_message_type) (tr : List Event) :
    List websocket_outgoing_message :=
  tr.filterMap fun e =>
    match e with
    | .send msg =>
      if msg.message_type = mt ∧ msg.length ≠ 0 ∧ msg.length ≤ UINT_MAX then some msg
      else none
    | _ => none

/-- The messages that finished `receive()` calls returned, in the order in which the
calls completed. -/
def returned (c : winrt_client) : List websocket_incoming_message :=
  c.received.filterMap fun p =>
    match p.2 with
    | .from_result msg => some msg
    | .from_exception _ => none

/-- The messages the relay pushed during a run, in the order of the `MessageReceived`
events: one for each event whose frame could be read. -/
def delivered (tr : List Event) : List websocket_incoming_message :=
  tr.filterMap fun e =>
    match e with
    | .OnReceive args _ => OnReceive_message args
    | _ => none

/-- The outcomes of the callers `order` running the rest of `receive` one after the
other on the queue `queue`: the first callers take the queued messages in order, the
others fail with ConnectionClosing. -/
def served (order : List Nat) (queue : List websocket_incoming_message) :
    List (Nat × receive_task) :=
  (order.zip queue).map (fun p => (p.1, .from_result p.2)) ++
    (order.drop queue.length).map (fun w => (w, .from_exception .ConnectionClosing))

/-- C1: `send` answers NotConnected without a writer, else TypeMismatch for a message of
another type, else EmptyMessage for length 0, else MessageTooLarge for a length above
UINT_MAX = 2^32 - 1; it accepts exactly when none of these holds (so length UINT_MAX is
accepted), and whenever it answers with an exception the whole client, in particular the
queue, the counter and what was given to the transport, is unchanged. -/
theorem send_validation (c : winrt_client) (msg : websocket_outgoing_message) :
    UINT_MAX = 2 ^ 32 - 1 ∧
    (c.m_messageWriter = false → send c msg = (c, .from_exception .NotConnected)) ∧
    (c.m_messageWriter = true → msg.message_type ≠ c.message_type →
      send c msg = (c, .from_exception .TypeMismatch)) ∧
    (c.m_messageWriter = true → msg.message_type = c.message_type → msg.length = 0 →
      send c msg = (c, .from_exception .EmptyMessage)) ∧
    (c.m_messageWriter = true → msg.message_type = c.message_type →
      msg.length > UINT_MAX → send c msg = (c, .from_exception .MessageTooLarge)) ∧
    (send_accepts c msg ↔ (send c msg).2 = .from_tce msg.m_send_tce) ∧
    (send_accepts c msg ↔ ∀ e, (send c msg).2 ≠ .from_exception e) ∧
    (send_accepts c msg → (send c msg).1.m_scheduled = c.m_scheduled + 1 ∧
      (send c msg).1.accepted = c.accepted ++ [msg]) ∧
    (∀ e, (send c msg).2 = .from_exception e →
      (send c msg).1 = c ∧
      (send c msg).1.m_outgoing_msg_queue = c.m_outgoing_msg_queue ∧
      (send c msg).1.m_scheduled = c.m_scheduled ∧
      (send c msg).1.dispatched = c.dispatched ∧
      (send c msg).1.in_flight = c.in_flight) := by
  have hmax : UINT_MAX = 2 ^ 32 - 1 := by decide
  refine ⟨hmax, ?_, ?_, ?_, ?_, ?_, ?_, ?_, ?_⟩
  · intro h; simp [send, h]
  · intro h1 h2; simp [send, h1, h2]
  · intro h1 h2 h3; simp [send, h1, h2, h3]
  · intro h1 h2 h4
    have h3 : msg.length ≠ 0 := by
      intro h0
      rw [h0] at h4
      exact absurd h4 (by decide)
    have h5 : ¬ msg.length ≤ UINT_MAX := Nat.not_le.mpr h4
    simp [send, h1, h2, h3, h5]
  · unfold send_accepts send
    rw [← hmax]
    split_ifs with h1 h2 h3 h4 <;> simp_all
  · unfold send_accepts send
    rw [← hmax]
    split_ifs with h1 h2 h3 h4 <;> simp_all
  · unfold send_accepts
    rw [← hmax]
    rintro ⟨h1, h2, h3, h4⟩
    have h5 : ¬ msg.length > UINT_MAX := Nat.not_lt.mpr h4
    simp only [send, h1, h2, h3, h5]
    simp only [Bool.true_eq_false, ne_eq, not_true_eq_false, if_false]
    split_ifs <;> simp [send_msg]
  · intro e he
    have : (send c msg).1 = c := by
      unfold send at he ⊢
      split_ifs at he ⊢ with h1 h2 h3 h4 <;> simp_all
    simp [this]

/-- Witness for C1 on a connected text client: a message of length UINT_MAX is accepted,
one of length UINT_MAX + 1 is refused and leaves the client as it was. -/
theorem send_validation_witness :
    send_accepts (winrt_client.connected .text_message) ⟨.text_message, 4294967295, 0⟩ ∧
    (send (winrt_client.connected .text_message) ⟨.text_message, 4294967295, 0⟩).1.m_scheduled
      = 1 ∧
    send (winrt_client.connected .text_message) ⟨.text_message, 4294967296, 0⟩
      = (winrt_client.connected .text_message, .from_exception .MessageTooLarge) ∧
    send (winrt_client.fresh .text_message) ⟨.binary_message, 0, 0⟩
      = (winrt_client.fresh .text_message, .from_exception .NotConnected) := by
  have hacc : send_accepts (winrt_client.connected .text_message)
      ⟨.text_message, 4294967295, 0⟩ := by
    refine ⟨rfl, rfl, by decide, by decide⟩
  have h := send_validation (winrt_client.connected .text_message)
    ⟨.text_message, 4294967295, 0⟩
  have h2 := send_validation (winrt_client.connected .text_message)
    ⟨.text_message, 4294967296, 0⟩
  have h3 := send_validation (winrt_client.fresh .text_message) ⟨.binary_message, 0, 0⟩
  refine ⟨hacc, ?_, ?_, ?_⟩
  · have := (h.2.2.2.2.2.2.2.1 hacc).1
    simpa [winrt_client.connected, connect_completed, winrt_client.fresh] using this
  · exact h2.2.2.2.2.1 rfl rfl (by decide)
  · exact h3.2.1 rfl

/-! ## Theorems: the send serializer -/

/-- The accounting only reads the send side of the client. -/
theorem SendInv_of_eq {c d : winrt_client} (h : SendInv c)
    (h1 : d.in_flight = c.in_flight) (h2 : d.m_scheduled = c.m_scheduled)
    (h3 : d.m_outgoing_msg_queue = c.m_outgoing_msg_queue)
    (h4 : d.dispatched = c.dispatched) (h5 : d.accepted = c.accepted) : SendInv d := by
  unfold SendInv at h ⊢
  rw [h1, h2, h3, h4, h5]
  exact h

/-- The accounting holds in the state the constructor leaves. -/
theorem SendInv_fresh (mt : websocket_message_type) : SendInv (winrt_client.fresh mt) := by
  simp [SendInv, winrt_client.fresh]

/-- An accepted or refused `send` keeps the accounting. -/
theorem SendInv_send (c : winrt_client) (msg : websocket_outgoing_message)
    (h : SendInv c) : SendInv (send c msg).1 := by
  obtain ⟨h1, h2, h3, h4⟩ := h
  unfold send
  split_ifs with a1 a2 a3 a4
  · exact ⟨h1, h2, h3, h4⟩
  · exact ⟨h1, h2, h3, h4⟩
  · exact ⟨h1, h2, h3, h4⟩
  · exact ⟨h1, h2, h3, h4⟩
  · by_cases hs : c.m_scheduled + 1 = 1
    · have hs0 : c.m_scheduled = 0 := by omega
      have hq : c.m_outgoing_msg_queue = [] := by
        have : (c.m_outgoing_msg_queue.length : Int) = 0 := by omega
        exact List.length_eq_zero.mp (by exact_mod_cast this)
      have hf : c.in_flight = [] := by
        have : (c.in_flight.length : Int) = 0 := by omega
        exact List.length_eq_zero.mp (by exact_mod_cast this)
      simp only [hs, if_true, send_msg, SendInv]
      simp [hq, hf, hs0] at h4 ⊢
      rw [← h4]
    · simp only [hs, if_false, SendInv]
      have hpos : c.in_flight.length = 1 := by
        by_cases hq : c.m_outgoing_msg_queue = []
        · have : (c.m_outgoing_msg_queue.length : Int) = 0 := by simp [hq]
          omega
        · exact h3 hq
      refine ⟨h1, ?_, fun _ => hpos, ?_⟩
      · simp only [List.length_append, List.length_singleton]
        push_cast
        omega
      · simp only [← List.append_assoc, h4]

/-- Failing a message touches nothing of the accounting. -/
theorem report_store_result_fields (c : winrt_client) (msg : websocket_outgoing_message)
    (r : store_result) :
    (report_store_result c msg r).in_flight = c.in_flight ∧
    (report_store_result c msg r).m_scheduled = c.m_scheduled ∧
    (report_store_result c msg r).m_outgoing_msg_queue = c.m_outgoing_msg_queue ∧
    (report_store_result c msg r).dispatched = c.dispatched ∧
    (report_store_result c msg r).accepted = c.accepted := by
  cases r with
  | stored br bw =>
    unfold report_store_result
    by_cases hb : bw = br <;> simp [hb, update_tce]
  | platform_exception hr => simp [report_store_result, update_tce]

/-- The block under the send lock, case of an empty queue. -/
theorem advance_queue_nil (c : winrt_client) (h : c.m_outgoing_msg_queue = []) :
    advance_queue c = { c with m_scheduled := c.m_scheduled - 1 } := by
  simp [advance_queue, h]

/-- The block under the send lock, case of a queue with front `next`. -/
theorem advance_queue_cons (c : winrt_client) (next : websocket_outgoing_message)
    (rest : List websocket_outgoing_message) (h : c.m_outgoing_msg_queue = next :: rest) :
    advance_queue c =
      { c with
        m_scheduled := c.m_scheduled - 1
        m_outgoing_msg_queue := rest
        in_flight := c.in_flight ++ [next]
        dispatched := c.dispatched ++ [next] } := by
  simp [advance_queue, h, send_msg]

/-- The block under the send lock restores the accounting after a write has left the
transport. -/
theorem SendInv_advance_queue (c : winrt_client) (h1 : c.in_flight = [])
    (h2 : c.m_scheduled = 1 + (c.m_outgoing_msg_queue.length : Int))
    (h4 : c.dispatched ++ c.m_outgoing_msg_queue = c.accepted) :
    SendInv (advance_queue c) := by
  cases hq : c.m_outgoing_msg_queue with
  | nil =>
    rw [advance_queue_nil c hq]
    simp [SendInv, h1, h2, hq]
    simpa [hq] using h4
  | cons next rest =>
    rw [advance_queue_cons c next rest hq]
    simp only [SendInv, h1, h2, hq]
    refine ⟨by simp, ?_, by simp, ?_⟩
    · simp only [List.nil_append, List.length_singleton, List.length_cons, List.length_nil]
      push_cast
      ring
    · rw [← h4, hq]
      simp

/-- With at most one pending write, the write that finishes is the only one. -/
theorem in_flight_singleton (c : winrt_client) (i : Nat) (msg : websocket_outgoing_message)
    (h1 : c.in_flight.length ≤ 1) (hg : c.in_flight.get? i = some msg) :
    c.in_flight = [msg] ∧ i = 0 := by
  match hc : c.in_flight, i, hg, h1 with
  | [], _, hg, _ => simp at hg
  | [x], 0, hg, _ => simp at hg; simp [hg]
  | [x], n + 1, hg, _ => simp at hg
  | _ :: _ :: _, _, _, h1 => simp at h1

/-- The continuations of a finished write keep the accounting. -/
theorem SendInv_store_completed (c : winrt_client) (i : Nat) (r : store_result)
    (h : SendInv c) : SendInv (store_completed c i r) := by
  obtain ⟨h1, h2, h3, h4⟩ := h
  unfold store_completed
  cases hg : c.in_flight.get? i with
  | none => exact ⟨h1, h2, h3, h4⟩
  | some msg =>
    obtain ⟨hf, hi⟩ := in_flight_singleton c i msg h1 hg
    subst hi
    simp only [hf, List.length_singleton, Nat.cast_one] at h2
    obtain ⟨f1, f2, f3, f4, f5⟩ :=
      report_store_result_fields { c with in_flight := c.in_flight.eraseIdx 0 } msg r
    simp only [send_msg_continuation]
    refine SendInv_of_eq (SendInv_advance_queue _ ?_ ?_ ?_) rfl rfl rfl rfl rfl
    · rw [f1, hf]; rfl
    · rw [f2, f3]; exact h2
    · rw [f4, f3, f5]; exact h4

/-- The rest of `receive` changes nothing but the released threads, the receive queue and
the outcomes of `receive()`. -/
theorem receive_resume_shape (c : winrt_client) (caller : Nat) :
    ∃ rel q rcv, receive_resume c caller =
      { c with cv_released := rel, m_receive_msg_queue := q, received := rcv } := by
  simp only [receive_resume]
  split_ifs
  · split
    · exact ⟨_, _, _, rfl⟩
    · exact ⟨_, _, _, rfl⟩
  · exact ⟨_, _, _, rfl⟩

/-- A released thread going on changes nothing but the released threads, the receive
queue, the outcomes of `receive()` and the record of uses after destruction. -/
theorem step_receive_resume_shape (c : winrt_client) (caller : Nat) :
    ∃ rel q rcv uad, step c (.receive_resume caller) =
      { c with
        cv_released := rel, m_receive_msg_queue := q, received := rcv,
        use_after_destroy := uad } := by
  simp only [step]
  split_ifs
  · unfold receive_resume_destroyed
    split_ifs
    · exact ⟨_, _, _, _, rfl⟩
    · exact ⟨_, _, _, _, rfl⟩
  · obtain ⟨rel, q, rcv, h⟩ := receive_resume_shape c caller
    rw [h]
    exact ⟨_, _, _, _, rfl⟩

/-- Every event keeps the accounting. -/
theorem SendInv_step (c : winrt_client) (e : Event) (h : SendInv c) : SendInv (step c e) := by
  cases e with
  | connect_completed failure =>
    cases failure <;> exact SendInv_of_eq h rfl rfl rfl rfl rfl
  | send msg => exact SendInv_send c msg h
  | store_completed i r => exact SendInv_store_completed c i r h
  | receive caller => exact SendInv_of_eq h rfl rfl rfl rfl rfl
  | receive_resume caller =>
    obtain ⟨rel, q, rcv, uad, hr⟩ := step_receive_resume_shape c caller
    rw [hr]
    exact SendInv_of_eq h rfl rfl rfl rfl rfl
  | spurious_wakeup pick =>
    simp only [step, notify_one]
    split <;> exact SendInv_of_eq h rfl rfl rfl rfl rfl
  | OnReceive args pick =>
    simp only [step, OnReceive, receive_handler, notify_one]
    split <;> split <;> exact SendInv_of_eq h rfl rfl rfl rfl rfl
  | OnClosed => exact SendInv_of_eq h rfl rfl rfl rfl rfl
  | close status reason => exact SendInv_of_eq h rfl rfl rfl rfl rfl
  | destroy => exact SendInv_of_eq h rfl rfl rfl rfl rfl

/-- Every run keeps the accounting. -/
theorem SendInv_run (c : winrt_client) (tr : List Event) (h : SendInv c) :
    SendInv (run c tr) := by
  induction tr generalizing c with
  | nil => exact h
  | cons e tr ih => exact ih (step c e) (SendInv_step c e h)

/-- Failing a message changes nothing but the completion events. -/
theorem report_store_result_shape (c : winrt_client) (msg : websocket_outgoing_message)
    (r : store_result) :
    ∃ f, report_store_result c msg r = { c with send_tce := f } := by
  cases r with
  | stored br bw =>
    unfold report_store_result
    by_cases hb : bw = br
    · exact ⟨c.send_tce, by simp [hb]⟩
    · exact ⟨_, by simp only [ne_eq, hb, not_false_eq_true, if_true]; rfl⟩
  | platform_exception hr => exact ⟨_, rfl⟩

/-- The continuations of `send_msg` change nothing but the completion events, the
counter, the send queue, the pending writes and the record of the `send_msg` calls. -/
theorem send_msg_continuation_shape (c : winrt_client) (msg : websocket_outgoing_message)
    (r : store_result) :
    ∃ f s q fl d, send_msg_continuation c msg r =
      { c with
        send_tce := f, m_scheduled := s, m_outgoing_msg_queue := q,
        in_flight := fl, dispatched := d } := by
  obtain ⟨f, hf⟩ := report_store_result_shape c msg r
  unfold send_msg_continuation
  rw [hf]
  match hq : c.m_outgoing_msg_queue with
  | [] =>
    rw [advance_queue_nil _ rfl]
    exact ⟨_, _, _, _, _, rfl⟩
  | next :: rest =>
    rw [advance_queue_cons _ next rest rfl]
    exact ⟨_, _, _, _, _, rfl⟩

/-- A finished write changes nothing but the completion events, the counter, the send
queue, the pending writes and the record of the `send_msg` calls. -/
theorem store_completed_shape (c : winrt_client) (i : Nat) (r : store_result) :
    ∃ f s q fl d, store_completed c i r =
      { c with
        send_tce := f, m_scheduled := s, m_outgoing_msg_queue := q,
        in_flight := fl, dispatched := d } := by
  unfold store_completed
  cases hg : c.in_flight.get? i with
  | none => exact ⟨_, _, _, _, _, rfl⟩
  | some msg =>
    obtain ⟨f, s, q, fl, d, h⟩ :=
      send_msg_continuation_shape { c with in_flight := c.in_flight.eraseIdx i } msg r
    exact ⟨f, s, q, fl, d, h⟩

/-- No event changes the configured type or removes the writer. -/
theorem step_config (c : winrt_client) (e : Event) :
    (step c e).message_type = c.message_type ∧
    (c.m_messageWriter = true → (step c e).m_messageWriter = true) := by
  cases e with
  | connect_completed failure => cases failure <;> simp [step, connect_completed]
  | send msg =>
    simp only [step, send]
    split_ifs <;> simp [send_msg]
  | store_completed i r =>
    obtain ⟨f, s, q, fl, d, h⟩ := store_completed_shape c i r
    simp only [step, h]
    simp
  | receive caller => simp [step, receive_wait]
  | receive_resume caller =>
    obtain ⟨rel, q, rcv, uad, hr⟩ := step_receive_resume_shape c caller
    rw [hr]
    simp
  | spurious_wakeup pick =>
    simp only [step, notify_one]
    split <;> simp
  | OnReceive args pick =>
    simp only [step, OnReceive, receive_handler, notify_one]
    split <;> split <;> simp
  | OnClosed => simp [step, OnClosed, close_handler, notify_all]
  | close status reason => simp [step, close]
  | destroy => simp [step, destroy, notify_all]

/-- The accepted messages of a run split at its first event. -/
theorem submitted_cons (mt : websocket_message_type) (e : Event) (tr : List Event) :
    submitted mt (e :: tr) = submitted mt [e] ++ submitted mt tr := by
  show submitted mt ([e] ++ tr) = _
  unfold submitted
  rw [List.filterMap_append]

/-- On a connected client, `send` appends to the accepted messages exactly the messages
of the configured type with a length from 1 to UINT_MAX; no other event appends. -/
theorem accepted_run (mt : websocket_message_type) (c : winrt_client) (tr : List Event)
    (hw : c.m_messageWriter = true) (hm : c.message_type = mt) :
    (run c tr).accepted = c.accepted ++ submitted mt tr := by
  induction tr generalizing c with
  | nil => simp [run, submitted]
  | cons e tr ih =>
    have hc := step_config c e
    have := ih (step c e) (hc.2 hw) (hc.1.trans hm)
    simp only [run, List.foldl_cons] at this ⊢
    rw [this]
    have hstep : (step c e).accepted = c.accepted ++ submitted mt [e] := by
      cases e with
      | connect_completed failure => cases failure <;> simp [step, connect_completed, submitted]
      | send msg =>
        simp only [step, send, submitted, hw, hm, List.filterMap_cons, List.filterMap_nil]
        by_cases h1 : msg.message_type = mt
        · by_cases h2 : msg.length = 0
          · simp [h1, h2]
          · by_cases h3 : msg.length ≤ UINT_MAX
            · have h4 : ¬ msg.length > UINT_MAX := Nat.not_lt.mpr h3
              simp only [h1, h2, h3, h4]
              simp only [Bool.true_eq_false, ne_eq, not_true_eq_false, if_false,
                not_false_eq_true, and_self, if_true]
              split_ifs <;> simp_all [send_msg]
            · have h4 : msg.length > UINT_MAX := Nat.not_le.mp h3
              simp [h1, h2, h3, h4]
        · simp [h1]
      | store_completed i r =>
        obtain ⟨f, s, q, fl, d, h⟩ := store_completed_shape c i r
        simp only [step, h]
        simp [submitted]
      | receive caller => simp [step, receive_wait, submitted]
      | receive_resume caller =>
        obtain ⟨rel, q, rcv, uad, hr⟩ := step_receive_resume_shape c caller
        rw [hr]
        simp [submitted]
      | spurious_wakeup pick =>
        simp only [step, notify_one, submitted]
        split <;> simp
      | OnReceive args pick =>
        simp only [step, OnReceive, receive_handler, notify_one, submitted]
        split <;> split <;> simp
      | OnClosed => simp [step, OnClosed, close_handler, notify_all, submitted]
      | close status reason => simp [step, close, submitted]
      | destroy => simp [step, destroy, notify_all, submitted]
    rw [hstep, submitted_cons mt e tr, List.append_assoc]

/-- C3: in every state reached from a fresh session, whatever the events, at most one
message is in flight to the transport, `m_scheduled` is the number of messages in flight
plus the length of the send queue (so it is not negative), and the send queue is empty
unless a message is in flight. -/
theorem single_in_flight_accounting (mt : websocket_message_type) (tr : List Event) :
    (run (winrt_client.fresh mt) tr).in_flight.length ≤ 1 ∧
    (run (winrt_client.fresh mt) tr).m_scheduled =
      ((run (winrt_client.fresh mt) tr).in_flight.length : Int) +
      ((run (winrt_client.fresh mt) tr).m_outgoing_msg_queue.length : Int) ∧
    0 ≤ (run (winrt_client.fresh mt) tr).m_scheduled ∧
    ((run (winrt_client.fresh mt) tr).m_outgoing_msg_queue = [] ∨
      (run (winrt_client.fresh mt) tr).in_flight.length = 1) := by
  obtain ⟨h1, h2, h3, _⟩ := SendInv_run _ tr (SendInv_fresh mt)
  refine ⟨h1, h2, ?_, ?_⟩
  · rw [h2]; positivity
  · by_cases hq : (run (winrt_client.fresh mt) tr).m_outgoing_msg_queue = []
    · exact Or.inl hq
    · exact Or.inr (h3 hq)

/-- C2: from a connected idle session, whatever the interleaving of `send` calls, write
completions and other events, the messages given to `send_msg` are an initial segment of
the accepted messages in the order of their `send` calls (the rest of them is the send
queue), and they are all of them whenever no started write is pending. -/
theorem send_order (mt : websocket_message_type) (tr : List Event) :
    (run (winrt_client.connected mt) tr).dispatched <+: submitted mt tr ∧
    (run (winrt_client.connected mt) tr).dispatched ++
      (run (winrt_client.connected mt) tr).m_outgoing_msg_queue = submitted mt tr ∧
    ((run (winrt_client.connected mt) tr).in_flight = [] →
      (run (winrt_client.connected mt) tr).dispatched = submitted mt tr) := by
  have hinv : SendInv (winrt_client.connected mt) := by
    simp [SendInv, winrt_client.connected, connect_completed, winrt_client.fresh]
  obtain ⟨h1, h2, h3, h4⟩ := SendInv_run _ tr hinv
  have hacc := accepted_run mt (winrt_client.connected mt) tr rfl rfl
  have hnil : (winrt_client.connected mt).accepted = [] := rfl
  rw [hnil, List.nil_append] at hacc
  rw [hacc] at h4
  refine ⟨⟨_, h4⟩, h4, ?_⟩
  intro hf
  by_cases hq : (run (winrt_client.connected mt) tr).m_outgoing_msg_queue = []
  · rw [hq, List.append_nil] at h4
    exact h4
  · have := h3 hq
    rw [hf] at this
    simp at this

/-! ## Theorems: the receive relay -/

/-- A notification changes nothing but the two lists of the condition variable. -/
theorem notify_one_shape (c : winrt_client) (pick : Nat) :
    ∃ w r, notify_one c pick = { c with cv_waiting := w, cv_released := r } := by
  unfold notify_one
  split
  · exact ⟨_, _, rfl⟩
  · exact ⟨_, _, rfl⟩

/-- The messages returned so far followed by the queue are what arrived: the effect of one
event. -/
theorem returned_step (c : winrt_client) (e : Event) :
    returned (step c e) ++ (step c e).m_receive_msg_queue =
      (returned c ++ c.m_receive_msg_queue) ++ delivered [e] ∧
    (step c e).arrived = c.arrived ++ delivered [e] := by
  cases e with
  | connect_completed failure =>
    cases failure <;> simp [step, connect_completed, returned, delivered]
  | send msg =>
    simp only [step, send]
    split_ifs <;> simp [send_msg, returned, delivered]
  | store_completed i r =>
    obtain ⟨f, s, q, fl, d, h⟩ := store_completed_shape c i r
    simp only [step, h]
    simp [returned, delivered]
  | receive caller => simp [step, receive_wait, returned, delivered]
  | receive_resume caller =>
    simp only [step]
    split_ifs
    · unfold receive_resume_destroyed
      split_ifs <;> simp [returned, delivered]
    · unfold receive_resume
      split_ifs
      · cases hq : c.m_receive_msg_queue with
        | nil => simp [returned, delivered]
        | cons m rest => simp [returned, delivered]
      · simp [returned, delivered]
  | spurious_wakeup pick =>
    obtain ⟨w, r, h⟩ := notify_one_shape c pick
    simp only [step, h]
    simp [returned, delivered]
  | OnReceive args pick =>
    simp only [step, OnReceive, receive_handler]
    cases hm : OnReceive_message args with
    | none =>
      obtain ⟨w, r, h⟩ := notify_one_shape c pick
      simp only [h]
      simp [returned, delivered, hm]
    | some m =>
      obtain ⟨w, r, h⟩ := notify_one_shape
        { c with
          m_receive_msg_queue := c.m_receive_msg_queue ++ [m]
          arrived := c.arrived ++ [m] } pick
      simp only [h]
      simp [returned, delivered, hm]
  | OnClosed => simp [step, OnClosed, close_handler, notify_all, returned, delivered]
  | close status reason => simp [step, close, returned, delivered]
  | destroy => simp [step, destroy, notify_all, returned, delivered]

/-- The pushed messages of a run split at its first event. -/
theorem delivered_cons (e : Event) (tr : List Event) :
    delivered (e :: tr) = delivered [e] ++ delivered tr := by
  show delivered ([e] ++ tr) = _
  unfold delivered
  rw [List.filterMap_append]

/-- The messages returned so far followed by the queue are what arrived: the effect of a
run. -/
theorem returned_run (c : winrt_client) (tr : List Event) :
    returned (run c tr) ++ (run c tr).m_receive_msg_queue =
      (returned c ++ c.m_receive_msg_queue) ++ delivered tr ∧
    (run c tr).arrived = c.arrived ++ delivered tr := by
  induction tr generalizing c with
  | nil => simp [run, delivered]
  | cons e tr ih =>
    obtain ⟨h1, h2⟩ := ih (step c e)
    obtain ⟨s1, s2⟩ := returned_step c e
    simp only [run, List.foldl_cons] at h1 h2 ⊢
    rw [h1, h2, s1, s2, delivered_cons e tr]
    simp

/-- C8: whatever the interleaving of deliveries, `receive()` calls, wake-ups and other
events from a fresh session, the messages returned by the successful `receive()` calls,
in the order the calls complete, are an initial segment of the messages the relay pushed
in arrival order, the rest of them being exactly the receive queue: none is returned
twice, skipped or reordered. -/
theorem receive_order (mt : websocket_message_type) (tr : List Event) :
    returned (run (winrt_client.fresh mt) tr) <+: delivered tr ∧
    returned (run (winrt_client.fresh mt) tr) ++
      (run (winrt_client.fresh mt) tr).m_receive_msg_queue = delivered tr ∧
    (run (winrt_client.fresh mt) tr).arrived = delivered tr := by
  obtain ⟨h1, h2⟩ := returned_run (winrt_client.fresh mt) tr
  have h0 : returned (winrt_client.fresh mt) ++
      (winrt_client.fresh mt).m_receive_msg_queue = [] := rfl
  have h3 : (winrt_client.fresh mt).arrived = [] := rfl
  rw [h0, List.nil_append] at h1
  rw [h3, List.nil_append] at h2
  exact ⟨⟨_, h1⟩, h1, h2⟩

/-- The first caller fails when the queue is empty. -/
theorem served_cons_nil (w : Nat) (ws : List Nat) :
    served (w :: ws) [] = (w, .from_exception .ConnectionClosing) :: served ws [] := by
  simp [served]

/-- The first caller takes the front of a queue that is not empty. -/
theorem served_cons_cons (w : Nat) (ws : List Nat) (m : websocket_incoming_message)
    (q : List websocket_incoming_message) :
    served (w :: ws) (m :: q) = (w, .from_result m) :: served ws q := by
  simp [served]

/-- On a live client, released callers that run the rest of `receive` one after the other
empty the list of released callers and are served from the queue in the order in which
they run. -/
theorem resume_all (c : winrt_client) (order : List Nat) (hlive : c.destroyed = false)
    (hperm : order.Perm c.cv_released) :
    (run c (order.map Event.receive_resume)).received =
      c.received ++ served order c.m_receive_msg_queue ∧
    (run c (order.map Event.receive_resume)).cv_released = [] ∧
    (run c (order.map Event.receive_resume)).cv_waiting = c.cv_waiting ∧
    (run c (order.map Event.receive_resume)).m_receive_msg_queue =
      c.m_receive_msg_queue.drop order.length := by
  induction order generalizing c with
  | nil =>
    have : c.cv_released = [] := List.Perm.eq_nil hperm.symm
    simp [run, served, this]
  | cons w ws ih =>
    have hmem : w ∈ c.cv_released := hperm.subset (List.mem_cons_self w ws)
    have hrest : ws.Perm (c.cv_released.erase w) := by
      have := List.Perm.erase w hperm
      simpa using this
    simp only [List.map_cons, run, List.foldl_cons]
    cases hq : c.m_receive_msg_queue with
    | nil =>
      have hstep : step c (Event.receive_resume w) =
          { c with
            cv_released := c.cv_released.erase w
            received := c.received ++ [(w, .from_exception .ConnectionClosing)] } := by
        simp [step, receive_resume, hmem, hq, hlive]
      obtain ⟨a1, a2, a3, a4⟩ := ih (step c (Event.receive_resume w))
        (by rw [hstep]; exact hlive) (by rw [hstep]; exact hrest)
      simp only [run] at a1 a2 a3 a4
      rw [a1, a2, a3, a4, hstep]
      simp [served_cons_nil, hq]
    | cons m q =>
      have hstep : step c (Event.receive_resume w) =
          { c with
            cv_released := c.cv_released.erase w
            m_receive_msg_queue := q
            received := c.received ++ [(w, .from_result m)] } := by
        simp [step, receive_resume, hmem, hq, hlive]
      obtain ⟨a1, a2, a3, a4⟩ := ih (step c (Event.receive_resume w))
        (by rw [hstep]; exact hlive) (by rw [hstep]; exact hrest)
      simp only [run] at a1 a2 a3 a4
      rw [a1, a2, a3, a4, hstep]
      simp [served_cons_cons]

/-- The closed event on a live client releases every caller blocked in `receive()`, none
stays blocked; when the released callers then run in any order, the first ones obtain
the queued messages in arrival order, as many as there are, and every other one fails
with ConnectionClosing. -/
theorem closed_event_releases_all (c : winrt_client) (order : List Nat)
    (hlive : c.destroyed = false)
    (hperm : order.Perm (c.cv_released ++ c.cv_waiting)) :
    (OnClosed c).cv_waiting = [] ∧
    (OnClosed c).cv_released = c.cv_released ++ c.cv_waiting ∧
    (run (step c .OnClosed) (order.map Event.receive_resume)).received =
      c.received ++ served order c.m_receive_msg_queue ∧
    (run (step c .OnClosed) (order.map Event.receive_resume)).cv_released = [] ∧
    (run (step c .OnClosed) (order.map Event.receive_resume)).cv_waiting = [] := by
  obtain ⟨a1, a2, a3, _⟩ := resume_all (step c .OnClosed) order hlive hperm
  exact ⟨rfl, rfl, a1, a2, a3⟩

/-- C10: the code at the failing input.  One frame is queued and the callers 1 and 2 are
blocked in `receive()` when the session is destroyed, `close()` never having been called.
The destructor releases both callers and nobody stays blocked, but the members are
destroyed: when the callers go on (2, then 1) each of them uses the destroyed mutex and
queue, and no `receive()` has an outcome, neither the queued message nor
ConnectionClosing.  With the closed event in the place of the destructor caller 2 obtains
the message and caller 1 fails with ConnectionClosing. -/
theorem destructor_released_callers_use_destroyed_members :
    (run (winrt_client.connected .text_message)
      [.OnReceive ⟨.Utf8, some [104, 105]⟩ 0, .receive 1, .receive 2]).cv_waiting
        = [1, 2] ∧
    (run (winrt_client.connected .text_message)
      [.OnReceive ⟨.Utf8, some [104, 105]⟩ 0, .receive 1, .receive 2,
        .destroy]).cv_waiting = [] ∧
    (run (winrt_client.connected .text_message)
      [.OnReceive ⟨.Utf8, some [104, 105]⟩ 0, .receive 1, .receive 2,
        .destroy]).cv_released = [1, 2] ∧
    (run (winrt_client.connected .text_message)
      [.OnReceive ⟨.Utf8, some [104, 105]⟩ 0, .receive 1, .receive 2,
        .destroy]).destroyed = true ∧
    (run (winrt_client.connected .text_message)
      [.OnReceive ⟨.Utf8, some [104, 105]⟩ 0, .receive 1, .receive 2,
        .destroy, .receive_resume 2, .receive_resume 1]).use_after_destroy = [2, 1] ∧
    (run (winrt_client.connected .text_message)
      [.OnReceive ⟨.Utf8, some [104, 105]⟩ 0, .receive 1, .receive 2,
        .destroy, .receive_resume 2, .receive_resume 1]).received = [] ∧
    (run (winrt_client.connected .text_message)
      [.OnReceive ⟨.Utf8, some [104, 105]⟩ 0, .receive 1, .receive 2,
        .OnClosed, .receive_resume 2, .receive_resume 1]).received =
      [(2, .from_result ⟨.text_message, 2, [104, 105]⟩),
        (1, .from_exception .ConnectionClosing)] ∧
    (run (winrt_client.connected .text_message)
      [.OnReceive ⟨.Utf8, some [104, 105]⟩ 0, .receive 1, .receive 2,
        .OnClosed, .receive_resume 2, .receive_resume 1]).use_after_destroy = [] := by
  decide

/-! ## Theorems: the close signal -/

/-- No event but the closed event touches the close signal. -/
theorem step_close_tce_other (c : winrt_client) (e : Event) (he : e ≠ .OnClosed) :
    (step c e).m_close_tce = c.m_close_tce := by
  cases e with
  | connect_completed failure => cases failure <;> simp [step, connect_completed]
  | send msg =>
    simp only [step, send]
    split_ifs <;> simp [send_msg]
  | store_completed i r =>
    obtain ⟨f, s, q, fl, d, h⟩ := store_completed_shape c i r
    simp only [step, h]
  | receive caller => simp [step, receive_wait]
  | receive_resume caller =>
    obtain ⟨rel, q, rcv, uad, hr⟩ := step_receive_resume_shape c caller
    rw [hr]
  | spurious_wakeup pick =>
    obtain ⟨w, r, h⟩ := notify_one_shape c pick
    simp only [step, h]
  | OnReceive args pick =>
    simp only [step, OnReceive, receive_handler]
    cases OnReceive_message args with
    | none =>
      obtain ⟨w, r, h⟩ := notify_one_shape c pick
      simp only [h]
    | some m =>
      obtain ⟨w, r, h⟩ := notify_one_shape
        { c with
          m_receive_msg_queue := c.m_receive_msg_queue ++ [m]
          arrived := c.arrived ++ [m] } pick
      simp only [h]
  | OnClosed => exact absurd rfl he
  | close status reason => simp [step, close]
  | destroy => simp [step, destroy, notify_all]

/-- Only the closed event touches the close signal, by `set()`. -/
theorem step_close_tce (c : winrt_client) (e : Event) :
    (step c e).m_close_tce = if e = .OnClosed then c.m_close_tce.set else c.m_close_tce := by
  by_cases he : e = .OnClosed
  · subst he
    simp [step, OnClosed, close_handler, notify_all]
  · rw [if_neg he]
    exact step_close_tce_other c e he

/-- The close signal after a run from a state in which it is pending: completed when a
closed event occurred, pending otherwise. -/
theorem run_close_tce (c : winrt_client) (tr : List Event) :
    (c.m_close_tce = .pending →
      (run c tr).m_close_tce = if Event.OnClosed ∈ tr then .completed else .pending) ∧
    (c.m_close_tce = .completed → (run c tr).m_close_tce = .completed) := by
  induction tr generalizing c with
  | nil => simp [run]
  | cons e tr ih =>
    obtain ⟨i1, i2⟩ := ih (step c e)
    have hs := step_close_tce c e
    simp only [run, List.foldl_cons] at i1 i2 ⊢
    constructor
    · intro hp
      by_cases he : e = .OnClosed
      · rw [if_pos he, hp] at hs
        rw [i2 hs]
        simp [he]
      · rw [if_neg he, hp] at hs
        rw [i1 hs]
        have : (Event.OnClosed ∈ e :: tr) ↔ Event.OnClosed ∈ tr := by
          simp [List.mem_cons, Ne.symm he]
        simp only [this]
    · intro hp
      by_cases he : e = .OnClosed
      · rw [if_pos he, hp] at hs
        exact i2 hs
      · rw [if_neg he, hp] at hs
        exact i2 hs

/-- C9: the close signal, from which the handle returned by `close()` is made, is
completed after a run from a fresh session exactly when a closed event occurred in the
run, and is pending otherwise; `close()` itself never changes it, the closed event
completes a pending signal, and on a completed signal both a further closed event and a
further `close()` leave it completed. -/
theorem close_signal (mt : websocket_message_type) (tr : List Event) (c : winrt_client)
    (status : Nat) (reason : String) :
    ((run (winrt_client.fresh mt) tr).m_close_tce = .completed ↔ Event.OnClosed ∈ tr) ∧
    ((run (winrt_client.fresh mt) tr).m_close_tce = .pending ↔ Event.OnClosed ∉ tr) ∧
    (close c status reason).m_close_tce = c.m_close_tce ∧
    (close c status reason).close_requests = c.close_requests ++ [(status, reason)] ∧
    (c.m_close_tce = .pending → (OnClosed c).m_close_tce = .completed) ∧
    (c.m_close_tce = .completed →
      (OnClosed c).m_close_tce = .completed ∧
      (close c status reason).m_close_tce = .completed) := by
  have h := (run_close_tce (winrt_client.fresh mt) tr).1 rfl
  refine ⟨?_, ?_, rfl, rfl, ?_, ?_⟩
  · rw [h]
    by_cases hm : Event.OnClosed ∈ tr <;> simp [hm]
  · rw [h]
    by_cases hm : Event.OnClosed ∈ tr <;> simp [hm]
  · intro hp
    simp [OnClosed, close_handler, notify_all, hp, tce_state.set]
  · intro hp
    simp [OnClosed, close_handler, notify_all, close, hp, tce_state.set]

/-! ## Theorems: failed writes -/

/-- C5: the code at the failing input.  A text frame arrives on a connected client and
then `receive()` is called (caller 7): the message stays in the queue, the caller is
blocked in the wait, nobody is released, no `receive()` has finished, and the caller
cannot run the rest of `receive`.  The same with two frames and two callers. -/
theorem receive_waits_with_queued_message :
    (run (winrt_client.connected .text_message)
      [.OnReceive ⟨.Utf8, some [104, 105]⟩ 0, .receive 7]).m_receive_msg_queue
        = [⟨.text_message, 2, [104, 105]⟩] ∧
    (run (winrt_client.connected .text_message)
      [.OnReceive ⟨.Utf8, some [104, 105]⟩ 0, .receive 7]).cv_waiting = [7] ∧
    (run (winrt_client.connected .text_message)
      [.OnReceive ⟨.Utf8, some [104, 105]⟩ 0, .receive 7]).cv_released = [] ∧
    (run (winrt_client.connected .text_message)
      [.OnReceive ⟨.Utf8, some [104, 105]⟩ 0, .receive 7]).received = [] ∧
    (run (winrt_client.connected .text_message)
      [.OnReceive ⟨.Utf8, some [104, 105]⟩ 0, .receive 7, .receive_resume 7]).received
        = [] ∧
    (run (winrt_client.connected .text_message)
      [.OnReceive ⟨.Utf8, some [1]⟩ 0, .OnReceive ⟨.Utf8, some [2]⟩ 0,
        .receive 7, .receive 8]).cv_waiting = [7, 8] ∧
    (run (winrt_client.connected .text_message)
      [.OnReceive ⟨.Utf8, some [1]⟩ 0, .OnReceive ⟨.Utf8, some [2]⟩ 0,
        .receive 7, .receive 8]).received = [] := by
  decide

/-- C6, the claim refuted at a concrete input.  Caller 7 is blocked in `receive()` on an
empty queue; a frame whose read raises arrives: caller 7 is released, and running the
rest of `receive` it fails with ConnectionClosing; the next frame, well-formed, is pushed
but not given to caller 7. -/
theorem failed_read_releases_blocked_caller :
    (run (winrt_client.connected .text_message) [.receive 7]).cv_waiting = [7] ∧
    (run (winrt_client.connected .text_message)
      [.receive 7, .OnReceive ⟨.Utf8, none⟩ 0]).cv_waiting = [] ∧
    (run (winrt_client.connected .text_message)
      [.receive 7, .OnReceive ⟨.Utf8, none⟩ 0]).cv_released = [7] ∧
    (run (winrt_client.connected .text_message)
      [.receive 7, .OnReceive ⟨.Utf8, none⟩ 0]).m_receive_msg_queue = [] ∧
    (run (winrt_client.connected .text_message)
      [.receive 7, .OnReceive ⟨.Utf8, none⟩ 0, .receive_resume 7]).received
        = [(7, .from_exception .ConnectionClosing)] ∧
    (run (winrt_client.connected .text_message)
      [.receive 7, .OnReceive ⟨.Utf8, none⟩ 0, .receive_resume 7,
        .OnReceive ⟨.Utf8, some [104, 105]⟩ 0]).received
        = [(7, .from_exception .ConnectionClosing)] ∧
    (run (winrt_client.connected .text_message)
      [.receive 7, .OnReceive ⟨.Utf8, none⟩ 0, .receive_resume 7,
        .OnReceive ⟨.Utf8, some [104, 105]⟩ 0]).m_receive_msg_queue
        = [⟨.text_message, 2, [104, 105]⟩] := by
  decide

/-- C6 as amended: when the relay fails to read a frame, the receive queue (and what
arrived and what was returned) is unchanged and exactly one blocked `receive()` caller,
if there is one, is released, nothing else changing; a released caller that finds the
queue empty completes with ConnectionClosing; and a well-formed frame is still appended
to the queue. -/
theorem failed_read_wakes_one (c : winrt_client) (args : MessageReceivedEventArgs)
    (pick : Nat) (hread : args.reader = none) :
    (OnReceive c args pick).m_receive_msg_queue = c.m_receive_msg_queue ∧
    (OnReceive c args pick).arrived = c.arrived ∧
    (OnReceive c args pick).received = c.received ∧
    OnReceive c args pick = notify_one c pick ∧
    (c.cv_waiting = [] → OnReceive c args pick = c) ∧
    (c.cv_waiting ≠ [] → ∃ w, w ∈ c.cv_waiting ∧
      (OnReceive c args pick).cv_released = c.cv_released ++ [w] ∧
      (OnReceive c args pick).cv_waiting.length + 1 = c.cv_waiting.length) ∧
    (∀ w, w ∈ c.cv_released → c.m_receive_msg_queue = [] →
      (receive_resume c w).received =
        c.received ++ [(w, .from_exception .ConnectionClosing)]) ∧
    (∀ (ty : SocketMessageType) (bytes : List Nat) (pick2 : Nat), ∃ m,
      OnReceive_message ⟨ty, some bytes⟩ = some m ∧ m.data = bytes ∧
      (OnReceive c ⟨ty, some bytes⟩ pick2).m_receive_msg_queue =
        c.m_receive_msg_queue ++ [m]) := by
  have hmsg : OnReceive_message args = none := by simp [OnReceive_message, hread]
  have heq : OnReceive c args pick = notify_one c pick := by
    simp [OnReceive, receive_handler, hmsg]
  obtain ⟨w, r, hshape⟩ := notify_one_shape c pick
  refine ⟨?_, ?_, ?_, heq, ?_, ?_, ?_, ?_⟩
  · rw [heq, hshape]
  · rw [heq, hshape]
  · rw [heq, hshape]
  · intro hw
    rw [heq]
    simp [notify_one, hw]
  · intro hw
    have hlen : 0 < c.cv_waiting.length := List.length_pos.mpr hw
    have hlt : pick % c.cv_waiting.length < c.cv_waiting.length := Nat.mod_lt _ hlen
    have hget : c.cv_waiting.get? (pick % c.cv_waiting.length) =
        some (c.cv_waiting.get ⟨pick % c.cv_waiting.length, hlt⟩) := List.get?_eq_get hlt
    refine ⟨c.cv_waiting.get ⟨pick % c.cv_waiting.length, hlt⟩, List.get_mem _ _ _, ?_, ?_⟩
    · rw [heq]
      simp only [notify_one, hget]
    · rw [heq]
      simp only [notify_one, hget]
      rw [List.length_eraseIdx]
      simp only [hlt, if_true]
      omega
  · intro w hw hq
    simp [receive_resume, hw, hq]
  · intro ty bytes pick2
    refine ⟨_, rfl, rfl, ?_⟩
    simp only [OnReceive, receive_handler, OnReceive_message]
    obtain ⟨w2, r2, h2⟩ := notify_one_shape
      { c with
        m_receive_msg_queue := c.m_receive_msg_queue ++
          [{ message_type :=
              match ty with
              | .Binary => .binary_message
              | .Utf8 => .text_message
             length := bytes.length
             data := bytes }]
        arrived := c.arrived ++
          [{ message_type :=
              match ty with
              | .Binary => .binary_message
              | .Utf8 => .text_message
             length := bytes.length
             data := bytes }] } pick2
    rw [h2]

/-- C7: the code at the failing input.  Caller 1 consumes the only frame, the closed
event fires, then `receive()` is called again (caller 2): the close signal is completed
and the queue empty, yet caller 2 is blocked in the wait, no second `receive()` has
finished, and caller 2 cannot run the rest of `receive`.  The same without any frame. -/
theorem receive_after_close_waits :
    (run (winrt_client.connected .text_message)
      [.receive 1, .OnReceive ⟨.Utf8, some [104, 105]⟩ 0, .receive_resume 1, .OnClosed,
        .receive 2]).m_close_tce = .completed ∧
    (run (winrt_client.connected .text_message)
      [.receive 1, .OnReceive ⟨.Utf8, some [104, 105]⟩ 0, .receive_resume 1, .OnClosed,
        .receive 2]).m_receive_msg_queue = [] ∧
    (run (winrt_client.connected .text_message)
      [.receive 1, .OnReceive ⟨.Utf8, some [104, 105]⟩ 0, .receive_resume 1, .OnClosed,
        .receive 2]).cv_waiting = [2] ∧
    (run (winrt_client.connected .text_message)
      [.receive 1, .OnReceive ⟨.Utf8, some [104, 105]⟩ 0, .receive_resume 1, .OnClosed,
        .receive 2]).cv_released = [] ∧
    (run (winrt_client.connected .text_message)
      [.receive 1, .OnReceive ⟨.Utf8, some [104, 105]⟩ 0, .receive_resume 1, .OnClosed,
        .receive 2]).received = [(1, .from_result ⟨.text_message, 2, [104, 105]⟩)] ∧
    (run (winrt_client.connected .text_message)
      [.receive 1, .OnReceive ⟨.Utf8, some [104, 105]⟩ 0, .receive_resume 1, .OnClosed,
        .receive 2, .receive_resume 2]).received
        = [(1, .from_result ⟨.text_message, 2, [104, 105]⟩)] ∧
    (run (winrt_client.connected .text_message) [.OnClosed, .receive 2]).cv_waiting = [2] ∧
    (run (winrt_client.connected .text_message) [.OnClosed, .receive 2]).received = [] := by
  decide

/-! ## Witnesses -/

/-- Witness for C2: two messages are sent back to back and both writes complete; no write
is pending and the messages given to `send_msg` are the two accepted ones in order. -/
theorem send_order_witness :
    (run (winrt_client.connected .text_message)
      [.send ⟨.text_message, 2, 0⟩, .send ⟨.text_message, 3, 1⟩,
        .store_completed 0 (.stored 2 2), .store_completed 0 (.stored 3 3)]).in_flight = [] ∧
    (run (winrt_client.connected .text_message)
      [.send ⟨.text_message, 2, 0⟩, .send ⟨.text_message, 3, 1⟩,
        .store_completed 0 (.stored 2 2), .store_completed 0 (.stored 3 3)]).dispatched =
      submitted .text_message
        [.send ⟨.text_message, 2, 0⟩, .send ⟨.text_message, 3, 1⟩,
          .store_completed 0 (.stored 2 2), .store_completed 0 (.stored 3 3)] ∧
    submitted .text_message
        [.send ⟨.text_message, 2, 0⟩, .send ⟨.text_message, 3, 1⟩,
          .store_completed 0 (.stored 2 2), .store_completed 0 (.stored 3 3)] =
      [⟨.text_message, 2, 0⟩, ⟨.text_message, 3, 1⟩] :=
  ⟨by decide,
    (send_order .text_message
      [.send ⟨.text_message, 2, 0⟩, .send ⟨.text_message, 3, 1⟩,
        .store_completed 0 (.stored 2 2), .store_completed 0 (.stored 3 3)]).2.2 (by decide),
    by decide⟩

/-- Witness for C6 as amended: caller 7 is blocked, the read of a frame fails; caller 7 is
the one released. -/
theorem failed_read_wakes_one_witness :
    (OnReceive (run (winrt_client.connected .text_message) [.receive 7])
      ⟨.Utf8, none⟩ 0).m_receive_msg_queue = [] ∧
    ∃ w, w ∈ (run (winrt_client.connected .text_message) [.receive 7]).cv_waiting ∧
      (OnReceive (run (winrt_client.connected .text_message) [.receive 7])
        ⟨.Utf8, none⟩ 0).cv_released =
        (run (winrt_client.connected .text_message) [.receive 7]).cv_released ++ [w] ∧
      (OnReceive (run (winrt_client.connected .text_message) [.receive 7])
        ⟨.Utf8, none⟩ 0).cv_waiting.length + 1 =
        (run (winrt_client.connected .text_message) [.receive 7]).cv_waiting.length :=
  have h := failed_read_wakes_one (run (winrt_client.connected .text_message) [.receive 7])
    ⟨.Utf8, none⟩ 0 rfl
  ⟨h.1.trans (by decide), h.2.2.2.2.2.1 (by decide)⟩

/-- Witness for C9: `close()` is called twice and the closed event fires twice; the signal
is completed, and it was pending after the two calls of `close()` alone. -/
theorem close_signal_witness :
    (run (winrt_client.fresh .text_message)
      [.close 1000 "", .close 1000 "", .OnClosed, .OnClosed]).m_close_tce = .completed ∧
    (run (winrt_client.fresh .text_message)
      [.close 1000 "", .close 1000 ""]).m_close_tce = .pending ∧
    (OnClosed (run (winrt_client.fresh .text_message)
      [.close 1000 "", .OnClosed])).m_close_tce = .completed :=
  ⟨(close_signal .text_message [.close 1000 "", .close 1000 "", .OnClosed, .OnClosed]
      (winrt_client.fresh .text_message) 1000 "").1.mpr (by decide),
    (close_signal .text_message [.close 1000 "", .close 1000 ""]
      (winrt_client.fresh .text_message) 1000 "").2.1.mpr (by decide),
    ((close_signal .text_message []
      (run (winrt_client.fresh .text_message) [.close 1000 "", .OnClosed])
      1000 "").2.2.2.2.2 (by decide)).1⟩

end WsWinrt
